import Mathlib

/-!
Shallow embedding of the golang-api HTTP dispatcher core.

Source of authority:
* router (normalizePath, FindHandler, ServeHTTP, getAllowedMethods) — src/unnamed/part_005
* Server.Handle, Server.AddMiddleware — src/server.go
* middleware set (RequireAuth, CORS, RecoverPanic, RateLimit) — src/middleware.go
* response helpers (JSON, NotFound, Unauthorized, InternalError) — src/response.go

Go strings are modelled as lists of characters (GoString).  Go maps are
modelled as association lists with overwrite-on-insert, which matches the
single-key semantics of a Go map.  A handler receives a response writer and
a request and either returns normally with the updated writer or panics;
the panic value and the writer state at the moment of the panic are kept so
that deferred recovery (RecoverPanic) can be modelled faithfully.  Log
output (log.Printf) is modelled as an event trace carried on the writer.
Wall-clock time (time.Now / time.Since) is modelled by passing an explicit
timestamp in seconds to the rate-limiter step.
-/

/-- Go string value: a sequence of characters. -/
abbrev GoString := List Char

/-- Coerce a Lean string literal to the Go string model. -/
def gstr (s : String) : GoString := s.data

/-- strings.HasSuffix: `suffix` is a suffix of `s`. -/
def hasSuffix (s suffix : GoString) : Bool := decide (suffix <:+ s)

/-- strings.TrimSuffix: remove one trailing occurrence of `suffix`, when present. -/
def trimSuffix (s suffix : GoString) : GoString :=
  if hasSuffix s suffix then s.take (s.length - suffix.length) else s

/-- strings.HasPrefix: `pre` begins `s`. -/
def startsWith (s pre : GoString) : Bool := decide (pre <+: s)

/-- strings.TrimPrefix: remove one leading occurrence of `pre`, when present. -/
def trimStart (s pre : GoString) : GoString :=
  if startsWith s pre then s.drop pre.length else s

/-- strings.Join: concatenate the elements with the separator between them. -/
def goJoin (elems : List GoString) (sep : GoString) : GoString :=
  List.intercalate sep elems

/-- Lookup in a Go map modelled as an association list (first binding wins;
`mapInsert` keeps at most one binding per key, so the first is the only one). -/
def mapLookup {α : Type} (m : List (GoString × α)) (k : GoString) : Option α :=
  match m with
  | [] => none
  | (k₁, v) :: rest => if k = k₁ then some v else mapLookup rest k

/-- Go map assignment `m[k] = v`: overwrite the binding of `k`, or append it. -/
def mapInsert {α : Type} (m : List (GoString × α)) (k : GoString) (v : α) :
    List (GoString × α) :=
  match m with
  | [] => [(k, v)]
  | (k₁, v₁) :: rest =>
      if k = k₁ then (k, v) :: rest else (k₁, v₁) :: mapInsert rest k v

/-- The JSON envelope written by every response helper (types.go APIResponse).
The free-form Data payload is not used by the routing/middleware core and is
omitted. -/
structure APIResponse where
  success : Bool
  message : GoString
  error : GoString
deriving DecidableEq, Repr

/-- The observable state of an http.ResponseWriter, together with the global
log stream (`events`) used to observe execution order. -/
structure ResponseWriter where
  headers : List (GoString × GoString)
  status : Option Nat
  body : List APIResponse
  events : List GoString
deriving DecidableEq, Repr

/-- w.Header().Set(k, v): replace or add a response header. -/
def setHeader (w : ResponseWriter) (k v : GoString) : ResponseWriter :=
  { w with headers := mapInsert w.headers k v }

/-- w.WriteHeader(code): the first written status wins; net/http ignores a
second WriteHeader call. -/
def writeHeader (w : ResponseWriter) (code : Nat) : ResponseWriter :=
  { w with status := if w.status.isSome then w.status else some code }

/-- Append a log.Printf line to the observable event trace. -/
def logEvent (w : ResponseWriter) (line : GoString) : ResponseWriter :=
  { w with events := w.events ++ [line] }

/-- Outcome of running a handler: normal return, or a Go panic carrying the
panic value and the writer state at the moment of the panic. -/
inductive HResult where
  | ok (w : ResponseWriter)
  | panicked (fault : GoString) (w : ResponseWriter)
deriving DecidableEq, Repr

/-- An inbound request: method, URL path, remote address, headers. -/
structure Request where
  method : GoString
  urlPath : GoString
  remoteAddr : GoString
  reqHeaders : List (GoString × GoString)

/-- http.HandlerFunc: consumes the writer and the request. -/
def HandlerFunc := ResponseWriter → Request → HResult

/-- r.Header.Get(k): the header value, or the empty string when absent. -/
def headerGet (r : Request) (k : GoString) : GoString :=
  (mapLookup r.reqHeaders k).getD []

/-- type Middleware func(http.HandlerFunc) http.HandlerFunc. -/
def Middleware := HandlerFunc → HandlerFunc

/-- response.go JSON: set Content-Type, write the status code, encode the body.
Encoding an APIResponse never fails, so the encoder error path is dead. -/
def JSON (w : ResponseWriter) (statusCode : Nat) (data : APIResponse) : ResponseWriter :=
  let w₁ := setHeader w (gstr "Content-Type") (gstr "application/json")
  let w₂ := writeHeader w₁ statusCode
  { w₂ with body := w₂.body ++ [data] }

/-- response.go NotFound: 404 with a failure envelope. -/
def NotFound (w : ResponseWriter) (message : GoString) : ResponseWriter :=
  JSON w 404 { success := false, message := [], error := message }

/-- response.go Unauthorized: 401 with a failure envelope. -/
def Unauthorized (w : ResponseWriter) (message : GoString) : ResponseWriter :=
  JSON w 401 { success := false, message := [], error := message }

/-- response.go InternalError: 500 with a failure envelope. -/
def InternalError (w : ResponseWriter) (message : GoString) : ResponseWriter :=
  JSON w 500 { success := false, message := [], error := message }

/-- router.go normalizePath: strip one trailing slash unless the path is "/". -/
def normalizePath (path : GoString) : GoString :=
  if path.length > 1 ∧ hasSuffix path (gstr "/") then trimSuffix path (gstr "/")
  else path

/-- The router rule table: map[path]map[method]http.HandlerFunc. -/
structure Router where
  rules : List (GoString × List (GoString × HandlerFunc))

/-- router.go newRouter: empty rule table. -/
def newRouter : Router := { rules := [] }

/-- router.go FindHandler: normalize the path, then report
(handler, methodExists, pathExists).  Indexing a missing path yields the nil
map, in which the method lookup safely fails. -/
def FindHandler (rt : Router) (path method : GoString) :
    Option HandlerFunc × Bool × Bool :=
  let path₁ := normalizePath path
  let pathExists := (mapLookup rt.rules path₁).isSome
  let methodMap := (mapLookup rt.rules path₁).getD []
  let handler := mapLookup methodMap method
  (handler, handler.isSome, pathExists)

/-- router.go getAllowedMethods: comma-join the method keys registered for the
normalized path. -/
def getAllowedMethods (rt : Router) (path : GoString) : GoString :=
  let path₁ := normalizePath path
  let methods :=
    match mapLookup rt.rules path₁ with
    | some pathRules => pathRules.map (fun p => p.1)
    | none => []
  goJoin methods (gstr ", ")

/-- router.go ServeHTTP: two-stage dispatch.  Path miss → NotFound with the
unmatched path; method miss → 405 with the Allow header; otherwise invoke the
resolved handler.  (Calling a nil handler would panic in Go; that branch is
unreachable because methodExists is exactly the presence of the handler.) -/
def ServeHTTP (rt : Router) (w : ResponseWriter) (req : Request) : HResult :=
  match FindHandler rt req.urlPath req.method with
  | (handler, methodExists, pathExists) =>
    if pathExists = false then
      .ok (NotFound w (gstr "endpoint not found: " ++ req.urlPath))
    else if methodExists = false then
      .ok (JSON (setHeader w (gstr "Allow") (getAllowedMethods rt req.urlPath)) 405
        { success := false, message := [],
          error := gstr "method " ++ req.method ++ gstr " not allowed for this endpoint" })
    else
      match handler with
      | some h => h w req
      | none => .panicked (gstr "nil handler") w

/-- server.go Handle: normalize the path, create the method map when absent,
then assign rules[path][method] = handler.  Always succeeds. -/
def Handle (rt : Router) (method path : GoString) (handler : HandlerFunc) : Router :=
  let path₁ := normalizePath path
  let methodMap := (mapLookup rt.rules path₁).getD []
  { rules := mapInsert rt.rules path₁ (mapInsert methodMap method handler) }

/-- server.go AddMiddleware: left fold, each middleware wraps the previous
result. -/
def AddMiddleware (handler : HandlerFunc) (middlewares : List Middleware) : HandlerFunc :=
  middlewares.foldl (fun h middleware => middleware h) handler

/-- middleware.go RequireAuth: bearer-token check with early returns.  The
four failure branches write an Unauthorized response and never call next; on
success a truncated token preview is logged and next runs. -/
def RequireAuth : Middleware :=
  fun next => fun w r =>
    let authHeader := headerGet r (gstr "Authorization")
    if authHeader = [] then
      .ok (Unauthorized w (gstr "Missing Authorization header"))
    else if startsWith authHeader (gstr "Bearer ") = false then
      .ok (Unauthorized w (gstr "Invalid authorization format. Use: Bearer <token>"))
    else
      let token := trimStart authHeader (gstr "Bearer ")
      if token = [] then
        .ok (Unauthorized w (gstr "Empty token"))
      else if token ≠ gstr "demo-token" ∧ startsWith token (gstr "valid-") = false then
        .ok (Unauthorized w (gstr "Invalid token"))
      else
        next (logEvent w (gstr "Authenticated request with token: "
          ++ token.take (min 10 token.length) ++ gstr "...")) r

/-- middleware.go CORS: set the three CORS headers unconditionally, answer
OPTIONS preflight with 200 and short-circuit, otherwise delegate. -/
def CORS : Middleware :=
  fun next => fun w r =>
    let w₁ := setHeader w (gstr "Access-Control-Allow-Origin") (gstr "*")
    let w₂ := setHeader w₁ (gstr "Access-Control-Allow-Methods")
      (gstr "GET, POST, PUT, DELETE, OPTIONS")
    let w₃ := setHeader w₂ (gstr "Access-Control-Allow-Headers")
      (gstr "Content-Type, Authorization")
    if r.method = gstr "OPTIONS" then
      .ok (writeHeader w₃ 200)
    else
      next w₃ r

/-- middleware.go RecoverPanic: a deferred recover around next.  A panic from
the inner chain is logged with its value and turned into a generic 500; a
normal return passes through. -/
def RecoverPanic : Middleware :=
  fun next => fun w r =>
    match next w r with
    | .ok w₁ => .ok w₁
    | .panicked fault w₁ =>
        .ok (InternalError (logEvent w₁ (gstr "PANIC recovered: " ++ fault))
          (gstr "An unexpected error occurred"))

/-- The closed-over state of one RateLimit middleware instance: per-client
counts and the time at which the current window started. -/
structure RateLimitState where
  requests : List (GoString × Int)
  lastReset : Nat
deriving DecidableEq, Repr

/-- The rate-limit rejection: Retry-After 60 header, then a 429 failure
envelope. -/
def rlReject (w : ResponseWriter) : ResponseWriter :=
  JSON (setHeader w (gstr "Retry-After") (gstr "60")) 429
    { success := false, message := [],
      error := gstr "Rate limit exceeded. Please try again later." }

/-- middleware.go RateLimit, one request at time `now` (seconds): reset the
counters when more than a minute has passed since the last reset, then either
reject (count at quota) or increment and call next.  Returns the successor
state together with the handler outcome. -/
def rateLimitStep (requestsPerMinute : Int) (next : HandlerFunc)
    (st : RateLimitState) (now : Nat) (w : ResponseWriter) (r : Request) :
    RateLimitState × HResult :=
  let st₁ := if now - st.lastReset > 60 then
    { requests := [], lastReset := now } else st
  let clientIP := r.remoteAddr
  if (mapLookup st₁.requests clientIP).getD 0 ≥ requestsPerMinute then
    (st₁, .ok (rlReject w))
  else
    let st₂ := { st₁ with
      requests := mapInsert st₁.requests clientIP
        ((mapLookup st₁.requests clientIP).getD 0 + 1) }
    (st₂, next w r)

/-- middleware.go RateLimit: the state a fresh middleware instance closes
over — an empty count map and the construction time as the window start. -/
def rateLimitInit (t₀ : Nat) : RateLimitState :=
  { requests := [], lastReset := t₀ }

/-- Run the rate limiter over a list of arrival times for one fixed request
(same client, fresh writer per request), collecting each outcome. -/
def rlRun (q : Int) (next : HandlerFunc) (w : ResponseWriter) (r : Request)
    (st : RateLimitState) : List Nat → RateLimitState × List HResult
  | [] => (st, [])
  | t :: ts =>
      let p := rateLimitStep q next st t w r
      let rest := rlRun q next w r p.1 ts
      (rest.1, p.2 :: rest.2)

/-- Run the rate limiter over arbitrary interleaved traffic: each element
supplies the continuation, arrival time, writer and request of one call. -/
def rlRunState (q : Int)
    (steps : List (HandlerFunc × Nat × ResponseWriter × Request))
    (st : RateLimitState) : RateLimitState :=
  steps.foldl (fun s step => (rateLimitStep q step.1 s step.2.1 step.2.2.1 step.2.2.2).1) st

/-- Instrumented middleware for observing execution order: log a pre event,
delegate, log a post event on normal return. -/
def traceMW (name : GoString) : Middleware :=
  fun next => fun w r =>
    match next (logEvent w (name ++ gstr "-pre")) r with
    | .ok w₁ => .ok (logEvent w₁ (name ++ gstr "-post"))
    | .panicked f w₁ => .panicked f w₁

/-- Instrumented terminal handler: log one event. -/
def traceH (name : GoString) : HandlerFunc :=
  fun w _ => .ok (logEvent w name)

/-- The last Register call in `regs` whose (normalized path, method) pair is
(np, method); later list entries are later calls. -/
def lastReg : List (GoString × GoString × HandlerFunc) → GoString → GoString →
    Option HandlerFunc
  | [], _, _ => none
  | e :: regs, method, np =>
      match lastReg regs method np with
      | some h => some h
      | none =>
          if e.1 = method ∧ normalizePath e.2.1 = np then some e.2.2 else none

/-- Apply a whole registration sequence with Handle. -/
def handleAll (rt : Router) (regs : List (GoString × GoString × HandlerFunc)) :
    Router :=
  regs.foldl (fun r e => Handle r e.1 e.2.1 e.2.2) rt

/-- Every stored per-client count is at most the quota. -/
def countersBounded (q : Int) (st : RateLimitState) : Prop :=
  ∀ p ∈ st.requests, p.2 ≤ q

instance (q : Int) (st : RateLimitState) : Decidable (countersBounded q st) := by
  unfold countersBounded; infer_instance

/-- The writer state after the three unconditional CORS header writes. -/
def corsSet (w : ResponseWriter) : ResponseWriter :=
  setHeader (setHeader (setHeader w (gstr "Access-Control-Allow-Origin") (gstr "*"))
    (gstr "Access-Control-Allow-Methods") (gstr "GET, POST, PUT, DELETE, OPTIONS"))
    (gstr "Access-Control-Allow-Headers") (gstr "Content-Type, Authorization")

/-- An empty response writer, used as the fresh per-request writer. -/
def wEmpty : ResponseWriter := { headers := [], status := none, body := [], events := [] }

/-- A benign concrete handler. -/
def okH : HandlerFunc := fun w _ => .ok (logEvent w (gstr "H"))

/-- A concrete handler that panics. -/
def panicH : HandlerFunc := fun w _ => .panicked (gstr "boom") w

/-- Build a concrete request from method, path and Authorization header list. -/
def reqOf (m p : String) (hs : List (GoString × GoString)) : Request :=
  { method := gstr m, urlPath := gstr p, remoteAddr := gstr "1.2.3.4",
    reqHeaders := hs }

/-- A one-route table: GET /api handled by okH. -/
def rtW : Router := Handle newRouter (gstr "GET") (gstr "/api") okH

/-- A registration sequence where the second call overwrites the first after
path normalization. -/
def regsW : List (GoString × GoString × HandlerFunc) :=
  [(gstr "GET", gstr "/api", okH), (gstr "GET", gstr "/api/", panicH)]

-- ===========================================================================
-- Helper lemmas
-- ===========================================================================

theorem mapLookup_mapInsert_self {α : Type} (m : List (GoString × α))
    (k : GoString) (v : α) : mapLookup (mapInsert m k v) k = some v := by
  induction m with
  | nil => simp [mapInsert, mapLookup]
  | cons p rest ih =>
      by_cases h : k = p.1
      · simp [mapInsert, mapLookup, h]
      · simp [mapInsert, mapLookup, h, ih]

theorem mapLookup_mapInsert_ne {α : Type} (m : List (GoString × α))
    (k k₂ : GoString) (v : α) (h : k₂ ≠ k) :
    mapLookup (mapInsert m k v) k₂ = mapLookup m k₂ := by
  induction m with
  | nil => simp [mapInsert, mapLookup, h]
  | cons p rest ih =>
      by_cases hk : k = p.1
      · subst hk; simp [mapInsert, mapLookup, h]
      · by_cases hk₂ : k₂ = p.1
        · simp [mapInsert, mapLookup, hk, hk₂]
        · simp [mapInsert, mapLookup, hk, hk₂, ih]

theorem mapLookup_isSome_iff {α : Type} (m : List (GoString × α)) (k : GoString) :
    (mapLookup m k).isSome = true ↔ k ∈ m.map (fun p => p.1) := by
  induction m with
  | nil => simp [mapLookup]
  | cons p rest ih =>
      obtain ⟨k₁, v⟩ := p
      simp only [mapLookup, List.map_cons, List.mem_cons]
      by_cases h : k = k₁
      · rw [if_pos h]
        exact iff_of_true rfl (Or.inl h)
      · rw [if_neg h, ih]
        exact (or_iff_right h).symm

theorem hasSuffix_iff (s t : GoString) : hasSuffix s t = true ↔ t <:+ s := by
  simp [hasSuffix]

-- ===========================================================================
-- Claim theorems
-- ===========================================================================

/-- C9: composing an empty middleware list around any terminal handler
returns the handler itself, so invoking the result is observationally
identical to invoking the handler directly. -/
theorem addMiddleware_empty_identity :
    ∀ H : HandlerFunc, AddMiddleware H [] = H
      ∧ ∀ (w : ResponseWriter) (r : Request), AddMiddleware H [] w r = H w r :=
  fun _ => ⟨rfl, fun _ _ => rfl⟩

/-- C3: AddMiddleware is a left fold replacing the accumulator with
middleware(accumulator), so the produced handler is Mn(...(M2(M1(H)))); on a
single request the last-listed middleware's pre-logic runs first, then the
earlier ones, then the terminal handler, then the post-logic in reverse. -/
theorem addMiddleware_fold_order :
    (∀ (H : HandlerFunc) (ms : List Middleware) (m : Middleware),
        AddMiddleware H (ms ++ [m]) = m (AddMiddleware H ms))
    ∧ (∀ (H : HandlerFunc) (m₁ m₂ m₃ : Middleware),
        AddMiddleware H [m₁, m₂, m₃] = m₃ (m₂ (m₁ H)))
    ∧ (∀ (a b c hn : GoString) (w : ResponseWriter) (r : Request),
        AddMiddleware (traceH hn) [traceMW a, traceMW b, traceMW c] w r
          = .ok { w with events := w.events ++
              [c ++ gstr "-pre", b ++ gstr "-pre", a ++ gstr "-pre", hn,
               a ++ gstr "-post", b ++ gstr "-post", c ++ gstr "-post"] }) := by
  refine ⟨?_, ?_, ?_⟩
  · intro H ms m
    simp [AddMiddleware, List.foldl_append]
  · intro H m₁ m₂ m₃
    rfl
  · intro a b c hn w r
    simp [AddMiddleware, traceMW, traceH, logEvent]

/-- C4 counterexample: normalizePath is not idempotent — a path ending in two
separators loses one per pass. -/
theorem normalizePath_not_idempotent_cex :
    normalizePath (normalizePath (gstr "/a//")) ≠ normalizePath (gstr "/a//") := by
  decide

/-- C4 (amended): normalizePath is idempotent on every path that does not end
in two separators; the root path is never altered (as is any path not ending
in a separator), a longer path ending in the separator has exactly one
trailing separator stripped, and the concrete equations of the claim hold. -/
theorem normalizePath_props :
    (∀ p : GoString, hasSuffix p (gstr "//") = false →
        normalizePath (normalizePath p) = normalizePath p)
    ∧ normalizePath (gstr "/api/") = gstr "/api"
    ∧ normalizePath (gstr "/api") = gstr "/api"
    ∧ normalizePath (gstr "/") = gstr "/"
    ∧ (∀ p : GoString, ¬(p.length > 1 ∧ hasSuffix p (gstr "/") = true) →
        normalizePath p = p)
    ∧ (∀ t : GoString, t ≠ [] → normalizePath (t ++ gstr "/") = t) := by
  have hone : ∀ t : GoString, t ≠ [] → normalizePath (t ++ gstr "/") = t := by
    intro t ht
    have hsuf : hasSuffix (t ++ gstr "/") (gstr "/") = true := by
      rw [hasSuffix_iff]
      exact ⟨t, rfl⟩
    have hlen : (t ++ gstr "/").length = t.length + 1 := by
      simp [gstr]
    have hgt : (t ++ gstr "/").length > 1 := by
      rw [hlen]
      have : 0 < t.length := List.length_pos.mpr ht
      omega
    unfold normalizePath trimSuffix
    rw [if_pos ⟨hgt, hsuf⟩, if_pos hsuf, hlen]
    have : t.length + 1 - (gstr "/").length = t.length := by simp [gstr]
    rw [this]
    exact List.take_left t (gstr "/")
  have hid : ∀ p : GoString, ¬(p.length > 1 ∧ hasSuffix p (gstr "/") = true) →
      normalizePath p = p := by
    intro p hp
    unfold normalizePath
    rw [if_neg]
    simpa using hp
  refine ⟨?_, by decide, by decide, by decide, hid, hone⟩
  intro p hp
  by_cases hc : p.length > 1 ∧ hasSuffix p (gstr "/") = true
  · obtain ⟨hlen, hsuf⟩ := hc
    rw [hasSuffix_iff] at hsuf
    obtain ⟨t, ht⟩ := hsuf
    have htne : t ≠ [] := by
      intro h0
      subst h0
      simp [gstr] at ht
      rw [← ht] at hlen
      simp at hlen
    rw [← ht, hone t htne]
    apply hid
    rintro ⟨-, hts⟩
    rw [hasSuffix_iff] at hts
    obtain ⟨s, hs⟩ := hts
    have : hasSuffix p (gstr "//") = true := by
      rw [hasSuffix_iff]
      refine ⟨s, ?_⟩
      rw [← ht, ← hs]
      simp [gstr]
    rw [this] at hp
    simp at hp
  · rw [hid p hc, hid p hc]

theorem findHandler_handle_view (rt : Router) (m p : GoString) (h : HandlerFunc)
    (m₂ p₂ : GoString) :
    (FindHandler (Handle rt m p h) p₂ m₂).1
    = if m₂ = m ∧ normalizePath p₂ = normalizePath p then some h
      else (FindHandler rt p₂ m₂).1 := by
  simp only [FindHandler, Handle]
  by_cases hp : normalizePath p₂ = normalizePath p
  · by_cases hm : m₂ = m
    · rw [if_pos ⟨hm, hp⟩, hp, mapLookup_mapInsert_self]
      simp only [Option.getD_some]
      rw [hm, mapLookup_mapInsert_self]
    · rw [if_neg (fun hc => hm hc.1), hp, mapLookup_mapInsert_self]
      simp only [Option.getD_some]
      rw [mapLookup_mapInsert_ne _ _ _ _ hm]
  · rw [if_neg (fun hc => hp hc.2), mapLookup_mapInsert_ne _ _ _ _ hp]

theorem findHandler_some_path (rt : Router) (p m : GoString) (h : HandlerFunc) :
    (FindHandler rt p m).1 = some h → (FindHandler rt p m).2.2 = true := by
  intro hx
  simp only [FindHandler] at hx ⊢
  cases hq : mapLookup rt.rules (normalizePath p) with
  | none => rw [hq] at hx; simp [mapLookup] at hx
  | some mm => rfl

theorem findHandler_handleAll (regs : List (GoString × GoString × HandlerFunc)) :
    ∀ (rt : Router) (p m : GoString),
    (FindHandler (handleAll rt regs) p m).1
    = (lastReg regs m (normalizePath p)).elim ((FindHandler rt p m).1) some := by
  induction regs with
  | nil => intro rt p m; rfl
  | cons e regs ih =>
      intro rt p m
      have hstep : handleAll rt (e :: regs)
          = handleAll (Handle rt e.1 e.2.1 e.2.2) regs := rfl
      rw [hstep, ih]
      cases hl : lastReg regs m (normalizePath p) with
      | some h => simp [lastReg, hl]
      | none =>
          simp only [lastReg, hl]
          rw [findHandler_handle_view]
          by_cases hcond : e.1 = m ∧ normalizePath e.2.1 = normalizePath p
          · rw [if_pos ⟨hcond.1.symm, hcond.2.symm⟩, if_pos hcond]
            rfl
          · rw [if_neg (fun hc => hcond ⟨hc.1.symm, hc.2.symm⟩), if_neg hcond]

/-- C2: after any Register sequence, looking up a registered (method, path)
pair (after normalization) finds the handler supplied by the last Register
call for that pair, with pathFound and methodFound both true; and a Register
call never changes the handler of any other (normalized path, method) pair. -/
theorem handle_lookup_last (regs : List (GoString × GoString × HandlerFunc))
    (m p : GoString) (h : HandlerFunc) :
    (lastReg regs m (normalizePath p) = some h →
        FindHandler (handleAll newRouter regs) p m = (some h, true, true))
    ∧ (∀ (rt : Router) (m₂ p₂ : GoString) (h₂ : HandlerFunc),
        ¬(m = m₂ ∧ normalizePath p = normalizePath p₂) →
        (FindHandler (Handle rt m₂ p₂ h₂) p m).1 = (FindHandler rt p m).1) := by
  constructor
  · intro hl
    have h1 : (FindHandler (handleAll newRouter regs) p m).1 = some h := by
      rw [findHandler_handleAll, hl]
      rfl
    have h3 : (FindHandler (handleAll newRouter regs) p m).2.2 = true :=
      findHandler_some_path _ _ _ _ h1
    have h2 : (FindHandler (handleAll newRouter regs) p m).2.1 = true := by
      have hiso : (FindHandler (handleAll newRouter regs) p m).2.1
          = (FindHandler (handleAll newRouter regs) p m).1.isSome := rfl
      rw [hiso, h1]
      rfl
    rcases hfh : FindHandler (handleAll newRouter regs) p m with ⟨a, b, c⟩
    rw [hfh] at h1 h2 h3
    simp only at h1 h2 h3
    rw [h1, h2, h3]
  · intro rt m₂ p₂ h₂ hne
    rw [findHandler_handle_view]
    rw [if_neg hne]

/-- C1: dispatch classification.  An unregistered path gets the 404 response
carrying the unmatched path and no handler runs; a registered path with an
unregistered method gets the 405 response whose Allow value comma-joins
exactly the methods registered for that path; a registered pair delegates to
the resolved handler and the dispatcher writes nothing itself. -/
theorem serveHTTP_dispatch (rt : Router) (w : ResponseWriter) (req : Request) :
    ((FindHandler rt req.urlPath req.method).2.2 = false →
        ServeHTTP rt w req
          = .ok (NotFound w (gstr "endpoint not found: " ++ req.urlPath)))
    ∧ ((FindHandler rt req.urlPath req.method).2.2 = true →
       (FindHandler rt req.urlPath req.method).2.1 = false →
        ServeHTTP rt w req
          = .ok (JSON (setHeader w (gstr "Allow") (getAllowedMethods rt req.urlPath)) 405
              { success := false, message := [],
                error := gstr "method " ++ req.method
                  ++ gstr " not allowed for this endpoint" })
        ∧ ∃ ms : List GoString,
            getAllowedMethods rt req.urlPath = goJoin ms (gstr ", ")
            ∧ ∀ m : GoString, m ∈ ms ↔ (FindHandler rt req.urlPath m).2.1 = true)
    ∧ (∀ h : HandlerFunc, (FindHandler rt req.urlPath req.method).1 = some h →
        ServeHTTP rt w req = h w req) := by
  have hpe : (FindHandler rt req.urlPath req.method).2.2
      = (mapLookup rt.rules (normalizePath req.urlPath)).isSome := rfl
  have hme : ∀ m : GoString, (FindHandler rt req.urlPath m).2.1
      = (mapLookup ((mapLookup rt.rules (normalizePath req.urlPath)).getD []) m).isSome :=
    fun _ => rfl
  refine ⟨?_, ?_, ?_⟩
  · intro hp
    rcases hfh : FindHandler rt req.urlPath req.method with ⟨hd, me, pe⟩
    rw [hfh] at hp
    simp only at hp
    subst hp
    simp [ServeHTTP, hfh]
  · intro hp hm
    rcases hfh : FindHandler rt req.urlPath req.method with ⟨hd, me, pe⟩
    rw [hfh] at hp hm
    simp only at hp hm
    subst hp
    subst hm
    constructor
    · simp [ServeHTTP, hfh]
    · rw [hfh] at hpe
      simp only at hpe
      obtain ⟨pr, hq⟩ := Option.isSome_iff_exists.mp hpe.symm
      refine ⟨pr.map (fun e => e.1), ?_, ?_⟩
      · simp only [getAllowedMethods]
        rw [hq]
      · intro m
        rw [hme m, hq]
        simp only [Option.getD_some]
        exact (mapLookup_isSome_iff pr m).symm
  · intro h hh
    have hpt : (FindHandler rt req.urlPath req.method).2.2 = true :=
      findHandler_some_path rt req.urlPath req.method h hh
    have hmt : (FindHandler rt req.urlPath req.method).2.1 = true := by
      have hiso : (FindHandler rt req.urlPath req.method).2.1
          = (FindHandler rt req.urlPath req.method).1.isSome := rfl
      rw [hiso, hh]
      rfl
    rcases hfh : FindHandler rt req.urlPath req.method with ⟨hd, me, pe⟩
    rw [hfh] at hh hpt hmt
    simp only at hh hpt hmt
    subst hh
    subst hpt
    subst hmt
    simp [ServeHTTP, hfh]

theorem startsWith_ne_nil (s t : GoString) (h : startsWith s t = true)
    (ht : t ≠ []) : s ≠ [] := by
  simp only [startsWith, decide_eq_true_eq] at h
  obtain ⟨u, hu⟩ := h
  intro h0
  rw [h0] at hu
  exact ht (List.append_eq_nil.mp hu).1

/-- C8: CORS sets the three response headers first, unconditionally; an
OPTIONS request is answered immediately with 200 and next is never invoked
(the result does not depend on next); any other method delegates to next
exactly once, on the header-augmented writer. -/
theorem cors_behavior (next : HandlerFunc) (w : ResponseWriter) (r : Request) :
    (mapLookup (corsSet w).headers (gstr "Access-Control-Allow-Origin")
        = some (gstr "*")
      ∧ mapLookup (corsSet w).headers (gstr "Access-Control-Allow-Methods")
        = some (gstr "GET, POST, PUT, DELETE, OPTIONS")
      ∧ mapLookup (corsSet w).headers (gstr "Access-Control-Allow-Headers")
        = some (gstr "Content-Type, Authorization"))
    ∧ (r.method = gstr "OPTIONS" →
        CORS next w r = .ok (writeHeader (corsSet w) 200))
    ∧ (r.method ≠ gstr "OPTIONS" → CORS next w r = next (corsSet w) r) := by
  refine ⟨⟨?_, ?_, ?_⟩, ?_, ?_⟩
  · unfold corsSet setHeader
    rw [mapLookup_mapInsert_ne _ _ _ _ (by decide),
      mapLookup_mapInsert_ne _ _ _ _ (by decide), mapLookup_mapInsert_self]
  · unfold corsSet setHeader
    rw [mapLookup_mapInsert_ne _ _ _ _ (by decide), mapLookup_mapInsert_self]
  · unfold corsSet setHeader
    rw [mapLookup_mapInsert_self]
  · intro hm
    simp only [CORS]
    rw [if_pos hm]
    rfl
  · intro hm
    simp only [CORS]
    rw [if_neg hm]
    rfl

/-- C7: RecoverPanic always returns normally; a panic from the inner chain is
intercepted, logged with its fault value, and converted into the generic 500
response, while a normal inner return passes through unchanged. -/
theorem recoverPanic_contains (next : HandlerFunc) (w : ResponseWriter) (r : Request) :
    (∃ w₁, RecoverPanic next w r = .ok w₁)
    ∧ (∀ (f : GoString) (w₁ : ResponseWriter), next w r = .panicked f w₁ →
        RecoverPanic next w r
          = .ok (InternalError (logEvent w₁ (gstr "PANIC recovered: " ++ f))
              (gstr "An unexpected error occurred")))
    ∧ (∀ w₁ : ResponseWriter, next w r = .ok w₁ →
        RecoverPanic next w r = .ok w₁) := by
  refine ⟨?_, ?_, ?_⟩
  · cases hn : next w r with
    | ok w₁ => exact ⟨w₁, by simp [RecoverPanic, hn]⟩
    | panicked f w₁ =>
        exact ⟨InternalError (logEvent w₁ (gstr "PANIC recovered: " ++ f))
          (gstr "An unexpected error occurred"), by simp [RecoverPanic, hn]⟩
  · intro f w₁ hn
    simp [RecoverPanic, hn]
  · intro w₁ hn
    simp [RecoverPanic, hn]

/-- C6: RequireAuth short-circuits with a 401 response in the four failure
cases — missing header, wrong scheme, empty token, rejected token — with
four pairwise-distinct reason messages and the same status, and forwards to
next exactly for the sentinel token "demo-token" or a token with the
"valid-" prefix. -/
theorem requireAuth_cases (next : HandlerFunc) (w : ResponseWriter) (r : Request) :
    (headerGet r (gstr "Authorization") = [] →
        RequireAuth next w r
          = .ok (Unauthorized w (gstr "Missing Authorization header")))
    ∧ (headerGet r (gstr "Authorization") ≠ [] →
        startsWith (headerGet r (gstr "Authorization")) (gstr "Bearer ") = false →
        RequireAuth next w r
          = .ok (Unauthorized w
              (gstr "Invalid authorization format. Use: Bearer <token>")))
    ∧ (startsWith (headerGet r (gstr "Authorization")) (gstr "Bearer ") = true →
        trimStart (headerGet r (gstr "Authorization")) (gstr "Bearer ") = [] →
        RequireAuth next w r = .ok (Unauthorized w (gstr "Empty token")))
    ∧ (startsWith (headerGet r (gstr "Authorization")) (gstr "Bearer ") = true →
        trimStart (headerGet r (gstr "Authorization")) (gstr "Bearer ") ≠ [] →
        trimStart (headerGet r (gstr "Authorization")) (gstr "Bearer ")
          ≠ gstr "demo-token" →
        startsWith (trimStart (headerGet r (gstr "Authorization")) (gstr "Bearer "))
          (gstr "valid-") = false →
        RequireAuth next w r = .ok (Unauthorized w (gstr "Invalid token")))
    ∧ (startsWith (headerGet r (gstr "Authorization")) (gstr "Bearer ") = true →
        (trimStart (headerGet r (gstr "Authorization")) (gstr "Bearer ")
            = gstr "demo-token"
          ∨ startsWith (trimStart (headerGet r (gstr "Authorization")) (gstr "Bearer "))
              (gstr "valid-") = true) →
        RequireAuth next w r
          = next (logEvent w (gstr "Authenticated request with token: "
              ++ (trimStart (headerGet r (gstr "Authorization")) (gstr "Bearer ")).take
                  (min 10 (trimStart (headerGet r (gstr "Authorization"))
                    (gstr "Bearer ")).length)
              ++ gstr "...")) r)
    ∧ ([gstr "Missing Authorization header",
        gstr "Invalid authorization format. Use: Bearer <token>",
        gstr "Empty token", gstr "Invalid token"].Nodup
      ∧ ∀ m₁ m₂ : GoString,
          (Unauthorized w m₁).status = (Unauthorized w m₂).status) := by
  refine ⟨?_, ?_, ?_, ?_, ?_, by decide, fun m₁ m₂ => rfl⟩
  · intro h0
    simp only [RequireAuth]
    rw [if_pos h0]
  · intro hne hsw
    simp only [RequireAuth]
    rw [if_neg hne, if_pos hsw]
  · intro hsw htok
    have hne : headerGet r (gstr "Authorization") ≠ [] :=
      startsWith_ne_nil _ _ hsw (by decide)
    simp only [RequireAuth]
    rw [if_neg hne, if_neg (by simp [hsw]), if_pos htok]
  · intro hsw htne hdemo hvalid
    have hne : headerGet r (gstr "Authorization") ≠ [] :=
      startsWith_ne_nil _ _ hsw (by decide)
    simp only [RequireAuth]
    rw [if_neg hne, if_neg (by simp [hsw]), if_neg htne, if_pos ⟨hdemo, hvalid⟩]
  · intro hsw hacc
    have hne : headerGet r (gstr "Authorization") ≠ [] :=
      startsWith_ne_nil _ _ hsw (by decide)
    have htne : trimStart (headerGet r (gstr "Authorization")) (gstr "Bearer ") ≠ [] := by
      rcases hacc with hd | hv
      · rw [hd]; decide
      · exact startsWith_ne_nil _ _ hv (by decide)
    have hrej : ¬(trimStart (headerGet r (gstr "Authorization")) (gstr "Bearer ")
        ≠ gstr "demo-token"
        ∧ startsWith (trimStart (headerGet r (gstr "Authorization")) (gstr "Bearer "))
            (gstr "valid-") = false) := by
      rcases hacc with hd | hv
      · exact fun hc => hc.1 hd
      · exact fun hc => by rw [hv] at hc; exact Bool.noConfusion hc.2
    simp only [RequireAuth]
    rw [if_neg hne, if_neg (by simp [hsw]), if_neg htne, if_neg hrej]

theorem countersBounded_mapInsert (q v : Int) (m : List (GoString × Int))
    (k : GoString) (h : ∀ p ∈ m, p.2 ≤ q) (hv : v ≤ q) :
    ∀ p ∈ mapInsert m k v, p.2 ≤ q := by
  induction m with
  | nil =>
      intro p hp
      simp [mapInsert] at hp
      rw [hp]
      exact hv
  | cons e m ih =>
      intro p hp
      by_cases hk : k = e.1
      · simp only [mapInsert, if_pos hk, List.mem_cons] at hp
        rcases hp with hp | hp
        · rw [hp]; exact hv
        · exact h p (List.mem_cons_of_mem _ hp)
      · simp only [mapInsert, if_neg hk, List.mem_cons] at hp
        rcases hp with hp | hp
        · rw [hp]; exact h e (List.mem_cons_self _ _)
        · exact ih (fun u hu => h u (List.mem_cons_of_mem _ hu)) p hp

theorem rlStep_bound (q : Int) (next : HandlerFunc) (st : RateLimitState)
    (now : Nat) (w : ResponseWriter) (r : Request)
    (h : countersBounded q st) :
    countersBounded q (rateLimitStep q next st now w r).1 := by
  have hinit : countersBounded q (if now - st.lastReset > 60 then
      ({ requests := [], lastReset := now } : RateLimitState) else st) := by
    split
    · intro p hp; simp at hp
    · exact h
  simp only [rateLimitStep]
  set st₁ := (if now - st.lastReset > 60 then
      ({ requests := [], lastReset := now } : RateLimitState) else st) with hst₁
  by_cases hc : (mapLookup st₁.requests r.remoteAddr).getD 0 ≥ q
  · rw [if_pos hc]
    exact hinit
  · rw [if_neg hc]
    exact countersBounded_mapInsert q _ _ _ hinit (by omega)

theorem rlRun_window_aux (q : Int) (next : HandlerFunc) (w : ResponseWriter)
    (r : Request) :
    ∀ (ts : List Nat) (st : RateLimitState) (c : Int) (t₀ : Nat),
    st.lastReset = t₀ → (mapLookup st.requests r.remoteAddr).getD 0 = c →
    0 ≤ c → c ≤ q → (∀ t ∈ ts, t - t₀ ≤ 60) →
    ∀ i : Nat, i < ts.length →
      ((rlRun q next w r st ts).2.getD i (.ok w))
        = if (c + i : Int) < q then next w r else .ok (rlReject w) := by
  intro ts
  induction ts with
  | nil =>
      intro st c t₀ _ _ _ _ _ i hi
      simp at hi
  | cons t ts ih =>
      intro st c t₀ hlr hcount hc0 hcq hwin i hi
      have hnr : ¬(t - st.lastReset > 60) := by
        rw [hlr]
        have := hwin t (List.mem_cons_self t ts)
        omega
      by_cases hge : (mapLookup st.requests r.remoteAddr).getD 0 ≥ q
      · have hstep : rateLimitStep q next st t w r = (st, .ok (rlReject w)) := by
          simp only [rateLimitStep]
          rw [if_neg hnr, if_pos hge]
        have hcge : c ≥ q := by rw [← hcount]; exact hge
        cases i with
        | zero =>
            simp only [rlRun, hstep, List.getD_cons_zero]
            rw [if_neg (by push_cast; omega)]
        | succ i =>
            simp only [rlRun, hstep, List.getD_cons_succ]
            rw [ih st c t₀ hlr hcount hc0 hcq
              (fun u hu => hwin u (List.mem_cons_of_mem _ hu)) i (by simpa using hi)]
            rw [if_neg (by omega), if_neg (by omega)]
      · set st₂ : RateLimitState := { requests := mapInsert st.requests r.remoteAddr ((mapLookup st.requests r.remoteAddr).getD 0 + 1), lastReset := st.lastReset } with hst₂
        have hstep : rateLimitStep q next st t w r = (st₂, next w r) := by
          simp only [rateLimitStep]
          rw [if_neg hnr, if_neg hge]
        have hclt : c < q := by rw [← hcount]; omega
        cases i with
        | zero =>
            simp only [rlRun, hstep, List.getD_cons_zero]
            rw [if_pos (by push_cast; omega)]
        | succ i =>
            simp only [rlRun, hstep, List.getD_cons_succ]
            rw [ih st₂ (c + 1) t₀ (by rw [hst₂]; exact hlr)
              (by rw [hst₂]; show (mapLookup (mapInsert st.requests r.remoteAddr ((mapLookup st.requests r.remoteAddr).getD 0 + 1)) r.remoteAddr).getD 0 = c + 1; rw [mapLookup_mapInsert_self]; simp only [Option.getD_some, hcount])
              (by omega) (by omega)
              (fun u hu => hwin u (List.mem_cons_of_mem _ hu)) i (by simpa using hi)]
            have hshift : c + 1 + (i : Int) = c + ((i : Int) + 1) := by ring
            rw [hshift]
            simp only [Nat.cast_add, Nat.cast_one]

/-- C5: within one window a fixed client's first q requests are forwarded to
next and every later one is answered with the 429 rejection carrying
Retry-After 60 and no call to next; the first request arriving more than a
minute after the last reset clears all counts, restarts the window at its
arrival time, and is itself forwarded (with a positive quota).  Resets are
driven only by arriving requests, so a window without traffic is never
reset. -/
theorem rateLimit_window (q : Int) (next : HandlerFunc) (w : ResponseWriter)
    (r : Request) :
    (∀ (t₀ : Nat) (ts : List Nat), 0 ≤ q → (∀ t ∈ ts, t - t₀ ≤ 60) →
        ∀ i : Nat, i < ts.length →
          ((rlRun q next w r (rateLimitInit t₀) ts).2.getD i (.ok w))
            = if (i : Int) < q then next w r else .ok (rlReject w))
    ∧ (∀ (st : RateLimitState) (now : Nat), now - st.lastReset > 60 →
        rateLimitStep q next st now w r
          = rateLimitStep q next (rateLimitInit now) now w r
        ∧ (0 < q → rateLimitStep q next st now w r
            = ({ requests := [(r.remoteAddr, 1)], lastReset := now }, next w r)))
    ∧ (∀ (st : RateLimitState) (now : Nat), ¬(now - st.lastReset > 60) →
        (mapLookup st.requests r.remoteAddr).getD 0 ≥ q →
        rateLimitStep q next st now w r = (st, .ok (rlReject w))) := by
  refine ⟨?_, ?_, ?_⟩
  · intro t₀ ts hq hwin i hi
    rw [rlRun_window_aux q next w r ts (rateLimitInit t₀) 0 t₀ rfl rfl le_rfl hq hwin i hi]
    rw [zero_add]
  · intro st now hreset
    have hres₂ : ¬(now - (rateLimitInit now).lastReset > 60) := by
      simp [rateLimitInit]
    constructor
    · simp only [rateLimitStep]
      rw [if_pos hreset, if_neg hres₂]
      rfl
    · intro hq0
      simp only [rateLimitStep]
      rw [if_pos hreset]
      rw [if_neg (show ¬((mapLookup ([] : List (GoString × Int)) r.remoteAddr).getD 0 ≥ q) by simp [mapLookup]; omega)]
      simp [mapInsert, mapLookup]
  · intro st now hnr hge
    simp only [rateLimitStep]
    rw [if_neg hnr, if_pos hge]

/-- C10: every count stored by the rate limiter is at most the quota — a
count is incremented only when strictly below the quota and a window reset
only clears counts — so the bound holds after any sequence of processed
requests from the initial state. -/
theorem rateLimit_counter_bound (q : Int) :
    (∀ (next : HandlerFunc) (st : RateLimitState) (now : Nat)
        (w : ResponseWriter) (r : Request), countersBounded q st →
        countersBounded q (rateLimitStep q next st now w r).1)
    ∧ (∀ (t₀ : Nat)
        (steps : List (HandlerFunc × Nat × ResponseWriter × Request)),
        countersBounded q (rlRunState q steps (rateLimitInit t₀))) := by
  constructor
  · intro next st now w r h
    exact rlStep_bound q next st now w r h
  · intro t₀ steps
    have hgen : ∀ (steps : List (HandlerFunc × Nat × ResponseWriter × Request))
        (st : RateLimitState), countersBounded q st →
        countersBounded q (rlRunState q steps st) := by
      intro steps
      induction steps with
      | nil => intro st h; exact h
      | cons e steps ih =>
          intro st h
          exact ih _ (rlStep_bound q e.1 st e.2.1 e.2.2.1 e.2.2.2 h)
    exact hgen steps (rateLimitInit t₀) (fun p hp => by simp [rateLimitInit] at hp)

/-- Witness for serveHTTP_dispatch on a concrete table: /nope misses (404
with the path), POST /api hits path but not method (405), GET /api runs the
registered handler. -/
theorem serveHTTP_dispatch_witness :
    ((FindHandler rtW (gstr "/nope") (gstr "GET")).2.2 = false
      ∧ ServeHTTP rtW wEmpty (reqOf "GET" "/nope" [])
          = .ok (NotFound wEmpty (gstr "endpoint not found: " ++ gstr "/nope")))
    ∧ ((FindHandler rtW (gstr "/api") (gstr "POST")).2.2 = true
      ∧ (FindHandler rtW (gstr "/api") (gstr "POST")).2.1 = false
      ∧ (ServeHTTP rtW wEmpty (reqOf "POST" "/api" [])
          = .ok (JSON (setHeader wEmpty (gstr "Allow")
                (getAllowedMethods rtW (gstr "/api"))) 405
              { success := false, message := [],
                error := gstr "method " ++ gstr "POST"
                  ++ gstr " not allowed for this endpoint" })
        ∧ ∃ ms : List GoString,
            getAllowedMethods rtW (gstr "/api") = goJoin ms (gstr ", ")
            ∧ ∀ m : GoString, m ∈ ms ↔ (FindHandler rtW (gstr "/api") m).2.1 = true))
    ∧ ((FindHandler rtW (gstr "/api") (gstr "GET")).1 = some okH
      ∧ ServeHTTP rtW wEmpty (reqOf "GET" "/api" [])
          = okH wEmpty (reqOf "GET" "/api" [])) := by
  refine ⟨⟨by decide, ?_⟩, ⟨by decide, by decide, ?_⟩, ⟨rfl, ?_⟩⟩
  · exact (serveHTTP_dispatch rtW wEmpty (reqOf "GET" "/nope" [])).1 (by decide)
  · exact (serveHTTP_dispatch rtW wEmpty (reqOf "POST" "/api" [])).2.1
      (by decide) (by decide)
  · exact (serveHTTP_dispatch rtW wEmpty (reqOf "GET" "/api" [])).2.2 okH rfl

/-- Witness for handle_lookup_last: the normalized duplicate registration
wins, and registering an unrelated pair leaves the existing pair intact. -/
theorem handle_lookup_last_witness :
    (lastReg regsW (gstr "GET") (normalizePath (gstr "/api")) = some panicH
      ∧ FindHandler (handleAll newRouter regsW) (gstr "/api") (gstr "GET")
          = (some panicH, true, true))
    ∧ (¬(gstr "GET" = gstr "POST"
          ∧ normalizePath (gstr "/api") = normalizePath (gstr "/other"))
      ∧ (FindHandler (Handle rtW (gstr "POST") (gstr "/other") okH)
            (gstr "/api") (gstr "GET")).1
          = (FindHandler rtW (gstr "/api") (gstr "GET")).1) := by
  refine ⟨⟨rfl, ?_⟩, ⟨by decide, ?_⟩⟩
  · exact (handle_lookup_last regsW (gstr "GET") (gstr "/api") panicH).1 rfl
  · exact (handle_lookup_last regsW (gstr "GET") (gstr "/api") panicH).2
      rtW (gstr "POST") (gstr "/other") okH (by decide)

/-- Witness for normalizePath_props at concrete paths. -/
theorem normalizePath_props_witness :
    (hasSuffix (gstr "/api/") (gstr "//") = false
      ∧ normalizePath (normalizePath (gstr "/api/")) = normalizePath (gstr "/api/"))
    ∧ (¬((gstr "/x").length > 1 ∧ hasSuffix (gstr "/x") (gstr "/") = true)
      ∧ normalizePath (gstr "/x") = gstr "/x")
    ∧ (gstr "/api" ≠ [] ∧ normalizePath (gstr "/api" ++ gstr "/") = gstr "/api") := by
  refine ⟨⟨by decide, ?_⟩, ⟨by decide, ?_⟩, ⟨by decide, ?_⟩⟩
  · exact normalizePath_props.1 (gstr "/api/") (by decide)
  · exact normalizePath_props.2.2.2.2.1 (gstr "/x") (by decide)
  · exact normalizePath_props.2.2.2.2.2 (gstr "/api") (by decide)

/-- Witness for recoverPanic_contains: a panicking handler is converted to
the generic 500, a normal handler passes through. -/
theorem recoverPanic_contains_witness :
    (panicH wEmpty (reqOf "GET" "/api" []) = .panicked (gstr "boom") wEmpty
      ∧ RecoverPanic panicH wEmpty (reqOf "GET" "/api" [])
          = .ok (InternalError (logEvent wEmpty (gstr "PANIC recovered: " ++ gstr "boom"))
              (gstr "An unexpected error occurred")))
    ∧ (okH wEmpty (reqOf "GET" "/api" []) = .ok (logEvent wEmpty (gstr "H"))
      ∧ RecoverPanic okH wEmpty (reqOf "GET" "/api" [])
          = .ok (logEvent wEmpty (gstr "H"))) := by
  refine ⟨⟨rfl, ?_⟩, ⟨rfl, ?_⟩⟩
  · exact (recoverPanic_contains panicH wEmpty (reqOf "GET" "/api" [])).2.1
      (gstr "boom") wEmpty rfl
  · exact (recoverPanic_contains okH wEmpty (reqOf "GET" "/api" [])).2.2
      (logEvent wEmpty (gstr "H")) rfl

/-- Witness for cors_behavior: OPTIONS short-circuits with 200, GET
delegates on the header-augmented writer. -/
theorem cors_behavior_witness :
    ((reqOf "OPTIONS" "/api" []).method = gstr "OPTIONS"
      ∧ CORS okH wEmpty (reqOf "OPTIONS" "/api" [])
          = .ok (writeHeader (corsSet wEmpty) 200))
    ∧ ((reqOf "GET" "/api" []).method ≠ gstr "OPTIONS"
      ∧ CORS okH wEmpty (reqOf "GET" "/api" [])
          = okH (corsSet wEmpty) (reqOf "GET" "/api" [])) := by
  refine ⟨⟨rfl, ?_⟩, ⟨by decide, ?_⟩⟩
  · exact (cors_behavior okH wEmpty (reqOf "OPTIONS" "/api" [])).2.1 rfl
  · exact (cors_behavior okH wEmpty (reqOf "GET" "/api" [])).2.2 (by decide)

/-- Witness for rateLimit_window with quota 2: within a window the first
request forwards and the third rejects; after expiry the state resets and
the request forwards; at quota the rejection carries the Retry-After 60
response. -/
theorem rateLimit_window_witness :
    ((0 : Int) ≤ 2
      ∧ (∀ t ∈ [1, 2, 3], t - 0 ≤ 60)
      ∧ ((rlRun 2 okH wEmpty (reqOf "GET" "/api" []) (rateLimitInit 0)
            [1, 2, 3]).2.getD 0 (.ok wEmpty))
          = okH wEmpty (reqOf "GET" "/api" [])
      ∧ ((rlRun 2 okH wEmpty (reqOf "GET" "/api" []) (rateLimitInit 0)
            [1, 2, 3]).2.getD 2 (.ok wEmpty))
          = .ok (rlReject wEmpty))
    ∧ (100 - ({ requests := [(gstr "1.2.3.4", 2)], lastReset := 0 }
          : RateLimitState).lastReset > 60
      ∧ rateLimitStep 2 okH { requests := [(gstr "1.2.3.4", 2)], lastReset := 0 }
            100 wEmpty (reqOf "GET" "/api" [])
          = ({ requests := [(gstr "1.2.3.4", 1)], lastReset := 100 },
             okH wEmpty (reqOf "GET" "/api" [])))
    ∧ (¬(30 - ({ requests := [(gstr "1.2.3.4", 2)], lastReset := 0 }
          : RateLimitState).lastReset > 60)
      ∧ (mapLookup ([(gstr "1.2.3.4", 2)] : List (GoString × Int))
            (gstr "1.2.3.4")).getD 0 ≥ (2 : Int)
      ∧ rateLimitStep 2 okH { requests := [(gstr "1.2.3.4", 2)], lastReset := 0 }
            30 wEmpty (reqOf "GET" "/api" [])
          = ({ requests := [(gstr "1.2.3.4", 2)], lastReset := 0 },
             .ok (rlReject wEmpty))) := by
  refine ⟨⟨by decide, by decide, ?_, ?_⟩, ⟨by decide, ?_⟩, ⟨by decide, by decide, ?_⟩⟩
  · exact (rateLimit_window 2 okH wEmpty (reqOf "GET" "/api" [])).1 0 [1, 2, 3]
      (by decide) (by decide) 0 (by decide)
  · exact (rateLimit_window 2 okH wEmpty (reqOf "GET" "/api" [])).1 0 [1, 2, 3]
      (by decide) (by decide) 2 (by decide)
  · exact ((rateLimit_window 2 okH wEmpty (reqOf "GET" "/api" [])).2.1
      { requests := [(gstr "1.2.3.4", 2)], lastReset := 0 } 100 (by decide)).2
      (by decide)
  · exact (rateLimit_window 2 okH wEmpty (reqOf "GET" "/api" [])).2.2
      { requests := [(gstr "1.2.3.4", 2)], lastReset := 0 } 30 (by decide) (by decide)

/-- Witness for requireAuth_cases on the five concrete header shapes of the
claim. -/
theorem requireAuth_cases_witness :
    (headerGet (reqOf "GET" "/api" []) (gstr "Authorization") = []
      ∧ RequireAuth okH wEmpty (reqOf "GET" "/api" [])
          = .ok (Unauthorized wEmpty (gstr "Missing Authorization header")))
    ∧ (startsWith (headerGet (reqOf "GET" "/api"
            [(gstr "Authorization", gstr "Token x")]) (gstr "Authorization"))
          (gstr "Bearer ") = false
      ∧ RequireAuth okH wEmpty (reqOf "GET" "/api"
            [(gstr "Authorization", gstr "Token x")])
          = .ok (Unauthorized wEmpty
              (gstr "Invalid authorization format. Use: Bearer <token>")))
    ∧ (trimStart (headerGet (reqOf "GET" "/api"
            [(gstr "Authorization", gstr "Bearer ")]) (gstr "Authorization"))
          (gstr "Bearer ") = []
      ∧ RequireAuth okH wEmpty (reqOf "GET" "/api"
            [(gstr "Authorization", gstr "Bearer ")])
          = .ok (Unauthorized wEmpty (gstr "Empty token")))
    ∧ (trimStart (headerGet (reqOf "GET" "/api"
            [(gstr "Authorization", gstr "Bearer other")]) (gstr "Authorization"))
          (gstr "Bearer ") = gstr "other"
      ∧ RequireAuth okH wEmpty (reqOf "GET" "/api"
            [(gstr "Authorization", gstr "Bearer other")])
          = .ok (Unauthorized wEmpty (gstr "Invalid token")))
    ∧ RequireAuth okH wEmpty (reqOf "GET" "/api"
          [(gstr "Authorization", gstr "Bearer demo-token")])
        = okH (logEvent wEmpty
            (gstr "Authenticated request with token: demo-token...")) (reqOf "GET" "/api"
          [(gstr "Authorization", gstr "Bearer demo-token")])
    ∧ RequireAuth okH wEmpty (reqOf "GET" "/api"
          [(gstr "Authorization", gstr "Bearer valid-xyz")])
        = okH (logEvent wEmpty
            (gstr "Authenticated request with token: valid-xyz...")) (reqOf "GET" "/api"
          [(gstr "Authorization", gstr "Bearer valid-xyz")]) := by
  refine ⟨⟨by decide, ?_⟩, ⟨by decide, ?_⟩, ⟨by decide, ?_⟩, ⟨by decide, ?_⟩, ?_, ?_⟩
  · exact (requireAuth_cases okH wEmpty (reqOf "GET" "/api" [])).1 (by decide)
  · exact (requireAuth_cases okH wEmpty (reqOf "GET" "/api"
      [(gstr "Authorization", gstr "Token x")])).2.1 (by decide) (by decide)
  · exact (requireAuth_cases okH wEmpty (reqOf "GET" "/api"
      [(gstr "Authorization", gstr "Bearer ")])).2.2.1 (by decide) (by decide)
  · exact (requireAuth_cases okH wEmpty (reqOf "GET" "/api"
      [(gstr "Authorization", gstr "Bearer other")])).2.2.2.1
      (by decide) (by decide) (by decide) (by decide)
  · exact (requireAuth_cases okH wEmpty (reqOf "GET" "/api"
      [(gstr "Authorization", gstr "Bearer demo-token")])).2.2.2.2.1
      (by decide) (Or.inl (by decide))
  · exact (requireAuth_cases okH wEmpty (reqOf "GET" "/api"
      [(gstr "Authorization", gstr "Bearer valid-xyz")])).2.2.2.2.1
      (by decide) (Or.inr (by decide))

/-- Witness for rateLimit_counter_bound: bound preserved by one step from a
bounded state, and holding after a two-request run from the initial state. -/
theorem rateLimit_counter_bound_witness :
    (countersBounded 2 ({ requests := [(gstr "1.2.3.4", 1)], lastReset := 0 }
        : RateLimitState)
      ∧ countersBounded 2 (rateLimitStep 2 okH
          { requests := [(gstr "1.2.3.4", 1)], lastReset := 0 } 5 wEmpty
          (reqOf "GET" "/api" [])).1)
    ∧ countersBounded 2 (rlRunState 2
        [(okH, 1, wEmpty, reqOf "GET" "/api" []),
         (okH, 2, wEmpty, reqOf "GET" "/api" [])] (rateLimitInit 0)) := by
  refine ⟨⟨by decide, ?_⟩, ?_⟩
  · exact (rateLimit_counter_bound 2).1 okH
      { requests := [(gstr "1.2.3.4", 1)], lastReset := 0 } 5 wEmpty
      (reqOf "GET" "/api" []) (by decide)
  · exact (rateLimit_counter_bound 2).2 0
      [(okH, 1, wEmpty, reqOf "GET" "/api" []),
       (okH, 2, wEmpty, reqOf "GET" "/api" [])]
